import Mathlib

/-!
# Verification of the Content Machine v2 core

Shallow embedding of the core components of the `content-machine` repository
(`src/dedupe.py`, `src/cache.py`, `src/llm.py`, `src/pipeline.py`) and proofs
about them.  Python strings are modelled as `List Char`, Python floats as `ℚ`,
and external LLM responses as environment functions supplied to the model.
-/

set_option maxHeartbeats 1000000
set_option linter.unusedSectionVars false

namespace ContentMachine

/-- Python strings, modelled as character lists (length = character count). -/
abbrev Str := List Char

/-- Coerce a Lean string literal into the model's string type. -/
def S (s : String) : Str := s.data

/-! ## `src/dedupe.py`: text normalisation and Jaccard similarity -/

/-- A character matched by the regex `[a-zA-Z0-9']` of `_WORD_RE`
(`dedupe.py` line 14, same class in `pipeline.py` line 343). -/
def isWordChar (c : Char) : Bool :=
  (('a' ≤ c && c ≤ 'z') || ('A' ≤ c && c ≤ 'Z') || ('0' ≤ c && c ≤ '9') || c = '\'')

/-- Accumulator worker for `findallWords`: `acc` is the current in-progress
run of word characters, reversed. -/
def findallWordsAux (acc : Str) : Str → List Str
  | [] => if acc.isEmpty then [] else [acc.reverse]
  | c :: cs =>
    if isWordChar c then findallWordsAux (c :: acc) cs
    else (if acc.isEmpty then [] else [acc.reverse]) ++ findallWordsAux [] cs

/-- Model of `re.findall(r"[a-zA-Z0-9']+", s)`: the maximal runs of word characters. -/
def findallWords (l : Str) : List Str := findallWordsAux [] l

/-- Model of `str.lower()` (ASCII range, which is all the tokenizer keeps). -/
def pyLower (l : Str) : Str := l.map Char.toLower

/-- Model of `_normalize` (`dedupe.py` lines 17-19): lower-case, tokenize on
alphanumeric-plus-apostrophe runs, keep tokens of length > 1. -/
def dnormalize (text : Str) : List Str :=
  (findallWords (pyLower text)).filter (fun t => 1 < t.length)

/-- Model of `" ".join(toks)`. -/
def joinSpace (toks : List Str) : Str := List.intercalate (S " ") toks

/-- Model of `_ngrams` (`dedupe.py` lines 22-25): the set of `n`-grams of the token
list, falling back to the whole-token set when fewer than `n` tokens.
Python sets are modelled as duplicate-free lists (`List.dedup`), so that set
cardinalities are list lengths. -/
def ngrams (tokens : List Str) (n : ℕ) : List Str :=
  if tokens.length < n then tokens.dedup
  else ((List.range (tokens.length - n + 1)).map
      (fun i => joinSpace ((tokens.drop i).take n))).dedup

/-- The shingle set of a text at `n = 3`, as used by `jaccard_similarity`. -/
def shingles (text : Str) : List Str := ngrams (dnormalize text) 3

/-- Model of `len(ta & tb)` for duplicate-free lists. -/
def setInterCard (ta tb : List Str) : ℕ := (ta.filter (fun x => x ∈ tb)).length

/-- Model of `len(ta | tb)` for duplicate-free lists. -/
def setUnionCard (ta tb : List Str) : ℕ :=
  ta.length + (tb.filter (fun x => ¬ x ∈ ta)).length

/-- Model of `jaccard_similarity` (`dedupe.py` lines 28-33). -/
def jaccard_similarity (a b : Str) (n : ℕ := 3) : ℚ :=
  let ta := ngrams (dnormalize a) n
  let tb := ngrams (dnormalize b) n
  if ta = [] ∨ tb = [] then 0
  else (setInterCard ta tb : ℚ) / (setUnionCard ta tb : ℚ)

/-! ## `src/dedupe.py`: the dedupe store -/

/-- One row of the `dedupe_drafts` table: `(persona, content, created_at)`.
Timestamps are integers (seconds). -/
structure DedupeRecord where
  persona : Str
  content : Str
  created_at : ℤ
deriving DecidableEq

/-- The dedupe store: an append-only list of records. -/
abbrev DedupeStore := List DedupeRecord

/-- Model of `DedupeResult` (`dedupe.py` lines 36-40). -/
structure DedupeResult where
  is_duplicate : Bool
  similarity : ℚ
  matched_text : Option Str := none
deriving DecidableEq

/-- Model of `DedupeStore.add` (`dedupe.py` lines 66-72): append a timestamped row. -/
def dedupeAdd (store : DedupeStore) (persona content : Str) (now : ℤ) : DedupeStore :=
  store ++ [⟨persona, content, now⟩]

/-- Model of `DedupeStore.fetch_recent` (`dedupe.py` lines 74-81): rows for the persona
whose `created_at` is at or after `now - window_hours * 3600`. -/
def fetchRecent (store : DedupeStore) (persona : Str) (window_hours : ℤ) (now : ℤ) :
    List Str :=
  (store.filter (fun r => r.persona = persona ∧ now - window_hours * 3600 ≤ r.created_at)).map
    (fun r => r.content)

/-- The best-match fold of `DedupeStore.check` (`dedupe.py` lines 84-90):
keep the strictly-greater similarity and its text. -/
def bestMatch (content : Str) (texts : List Str) : ℚ × Option Str :=
  texts.foldl
    (fun acc existing =>
      let sim := jaccard_similarity content existing 3
      if acc.1 < sim then (sim, some existing) else acc)
    (0, none)

/-- Model of `DedupeStore.check` (`dedupe.py` lines 83-91). -/
def dedupeCheck (store : DedupeStore) (persona content : Str) (threshold : ℚ)
    (window_hours : ℤ) (now : ℤ) : DedupeResult :=
  let best := bestMatch content (fetchRecent store persona window_hours now)
  { is_duplicate := decide (threshold ≤ best.1), similarity := best.1,
    matched_text := best.2 }

/-! ## `src/cache.py`: the LLM cache -/

/-- Hit/miss counters (`CacheStats`, `cache.py` lines 14-17). -/
structure CacheStats where
  hits : ℕ := 0
  misses : ℕ := 0
deriving DecidableEq

/-- One row of the `llm_cache` table: `(key, value, created_at)`.  Keys are
opaque digests (any decidable type `κ`); values are the cached JSON (any
type `V`). -/
structure CacheEntry (κ V : Type) where
  key : κ
  value : V
  created_at : ℤ
deriving DecidableEq

/-- The state of `LLMCache`: the table rows plus configuration and stats
(`cache.py` lines 20-30). -/
structure LLMCache (κ V : Type) where
  entries : List (CacheEntry κ V)
  ttl_seconds : ℤ
  max_entries : ℤ
  stats : CacheStats := {}
deriving DecidableEq

variable {κ V : Type} [DecidableEq κ] [DecidableEq V]

/-- Model of `LLMCache._is_expired` (`cache.py` lines 45-46). -/
def isExpired (c : LLMCache κ V) (created_at : ℤ) (now : ℤ) : Bool :=
  decide (c.ttl_seconds < now - created_at)

/-- Model of `LLMCache.get` (`cache.py` lines 48-72): returns the stored value if
present and unexpired; deletes the row and misses on expiry.  (The corrupted
JSON branch cannot arise in the model: values are stored structurally.) -/
def cacheGet (c : LLMCache κ V) (key : κ) (now : ℤ) : Option V × LLMCache κ V :=
  match c.entries.find? (fun e => e.key = key) with
  | none => (none, { c with stats := { c.stats with misses := c.stats.misses + 1 } })
  | some e =>
    if isExpired c e.created_at now then
      (none, { c with
               entries := c.entries.filter (fun e' => ¬ e'.key = key)
               stats := { c.stats with misses := c.stats.misses + 1 } })
    else
      (some e.value, { c with stats := { c.stats with hits := c.stats.hits + 1 } })

/-- Model of `LLMCache._enforce_max_entries` (`cache.py` lines 85-96): when over the
ceiling, delete the oldest-created rows (`ORDER BY created_at ASC`) until the
count equals `max_entries`. -/
def enforceMaxEntries (c : LLMCache κ V) : LLMCache κ V :=
  if c.max_entries ≤ 0 then c
  else if (c.entries.length : ℤ) ≤ c.max_entries then c
  else
    let toDelete := c.entries.length - c.max_entries.toNat
    { c with entries :=
        (c.entries.insertionSort (fun a b => a.created_at ≤ b.created_at)).drop toDelete }

/-- Model of `LLMCache.set` (`cache.py` lines 74-83): `INSERT OR REPLACE` the row, then
enforce the ceiling. -/
def cacheSet (c : LLMCache κ V) (key : κ) (value : V) (now : ℤ) : LLMCache κ V :=
  enforceMaxEntries
    { c with entries := (c.entries.filter (fun e => ¬ e.key = key)) ++ [⟨key, value, now⟩] }

/-! ## `src/llm.py`: the LLM client

The underlying generative model is an external collaborator: the outcome of
the `k`-th `generate_content` attempt (including the subsequent JSON parse,
which the same `except` catches) is supplied by an environment function
`res : ℕ → Except Unit J`.  Side effects are recorded as an event trace. -/

/-- Observable side effects of `LLMClient.generate_json`. -/
inductive LLMEvent (J : Type) where
  /-- The `_rate_limit()` gate (inter-call minimum delay) on the miss path. -/
  | rateLimit : LLMEvent J
  /-- One `generate_content` network attempt (0-based). -/
  | modelCall (attempt : ℕ) : LLMEvent J
  /-- A retry-backoff sleep of the given number of seconds. -/
  | sleep (seconds : ℚ) : LLMEvent J
  /-- A `cache.set` write of the parsed result. -/
  | cacheWrite : LLMEvent J
  /-- A `_record_usage` telemetry record with its `cached` flag. -/
  | usage (cached : Bool) : LLMEvent J
deriving DecidableEq

/-- The rate-limit / retry configuration of `LLMClient` (`llm.py` lines 16-28). -/
structure LLMConfig where
  model : Str
  max_retries : ℕ := 3
  backoff_seconds : ℚ := 10
  min_delay_seconds : ℚ := 5
deriving DecidableEq

/-- Model of `LLMClient._cache_key` (`llm.py` lines 48-55): a deterministic digest of
the field-sorted serialization of `{stage, persona, model, prompt}`.  The
digest is injective on its payload, so it is modelled by the payload itself:
the key is a function of exactly these four fields. -/
structure CacheKey where
  stage : Str
  persona : Str
  model : Str
  prompt : Str
deriving DecidableEq

/-- See `CacheKey`. -/
def cache_key (stage persona model prompt : Str) : CacheKey :=
  ⟨stage, persona, model, prompt⟩

variable {J : Type} [DecidableEq J]

/-- The retry loop of `generate_json` (`llm.py` lines 69-93): `fuel` is the
number of remaining iterations of `for attempt in range(max_retries)` and `k`
the current 0-based attempt index.  A failed attempt sleeps
`backoff_seconds * (attempt + 1)` (this also happens after the final failed
attempt, before the loop exits); an exhausted loop raises. -/
def runAttempts (cfg : LLMConfig) (res : ℕ → Except Unit J) :
    ℕ → ℕ → List (LLMEvent J) × Except Unit J
  | 0, _ => ([], .error ())
  | fuel + 1, k =>
    match res k with
    | .ok j => ([.modelCall k], .ok j)
    | .error _ =>
      let rest := runAttempts cfg res fuel (k + 1)
      (.modelCall k :: .sleep (cfg.backoff_seconds * (k + 1)) :: rest.1, rest.2)

/-- Model of `LLMClient.generate_json` (`llm.py` lines 57-93): cache-first lookup (no
rate-limit gate and no model call on a hit, only a `cached` usage record);
on a miss, rate-limit then retry the model call, writing the parsed result
back through the cache and emitting a non-cached usage record on success,
raising after `max_retries` failures.  Returns the event trace, the outcome,
and the updated cache. -/
def generate_json (cfg : LLMConfig) (cache : Option (LLMCache CacheKey J)) (now : ℤ)
    (stage persona prompt : Str) (res : ℕ → Except Unit J) :
    List (LLMEvent J) × Except Unit J × Option (LLMCache CacheKey J) :=
  let key := cache_key stage persona cfg.model prompt
  match cache with
  | some c =>
    match cacheGet c key now with
    | (some v, c') => ([.usage true], .ok v, some c')
    | (none, c') =>
      let r := runAttempts cfg res cfg.max_retries 0
      match r.2 with
      | .ok j =>
        (.rateLimit :: r.1 ++ [.cacheWrite, .usage false], .ok j,
          some (cacheSet c' key j now))
      | .error e => (.rateLimit :: r.1, .error e, some c')
  | none =>
    let r := runAttempts cfg res cfg.max_retries 0
    match r.2 with
    | .ok j => (.rateLimit :: r.1 ++ [.usage false], .ok j, none)
    | .error e => (.rateLimit :: r.1, .error e, none)

/-- The lookup part of the cache-first path: what `cache.get(key)` yields
for an optional cache. -/
def cacheLookup (cache : Option (LLMCache CacheKey J)) (key : CacheKey) (now : ℤ) :
    Option J :=
  match cache with
  | none => none
  | some c => (cacheGet c key now).1

/-- Is an event a network attempt? -/
def isModelCall : LLMEvent J → Bool
  | .modelCall _ => true
  | _ => false

/-- The event trace of a run in which every attempt fails: attempt `k`
followed by a sleep of `backoff_seconds * (k + 1)`, for `k < n`. -/
def expectedFailEvents (b : ℚ) (n : ℕ) : List (LLMEvent J) :=
  (List.range n).flatMap (fun k => [.modelCall k, .sleep (b * (k + 1))])

/-! ## `src/pipeline.py`: the content pipeline

Stage responses from the LLM are external inputs, supplied per persona by a
`PersonaEnv`: one `Except`-valued response per stage call, indexed by call
order where a stage can be called repeatedly.  Raised exceptions are
`.error ()`. -/

/-- Model of `MAX_POST_LENGTH` (`pipeline.py` line 22). -/
def MAX_POST_LENGTH : ℕ := 280

/-- Python `str.strip()`: remove leading and trailing whitespace. -/
def pyStrip (s : Str) : Str :=
  ((s.dropWhile Char.isWhitespace).reverse.dropWhile Char.isWhitespace).reverse

/-- Python's substring test `needle in hay` (contiguous occurrence). -/
def isSubstring (needle : Str) : Str → Bool
  | [] => needle.isEmpty
  | c :: t => needle.isPrefixOf (c :: t) || isSubstring needle t

/-- The fields of `PersonaProfile` (`persona.py`) that the pipeline's
control flow and heuristics read. -/
structure PersonaProfile where
  key : Str
  forbidden_phrases : List Str
deriving DecidableEq

/-- The settings the pipeline reads (`pipeline.py` lines 168-169, 184-200),
with their source-code defaults. -/
structure PipelineCfg where
  quality_min_score : ℚ := 7
  max_revision_passes : ℕ := 1
  dedupe_enabled : Bool := true
  dedupe_threshold : ℚ := 82 / 100
  dedupe_window_hours : ℤ := 24
deriving DecidableEq

/-- The JSON shape consumed from IDEATE (`pipeline.py` lines 216-218). -/
structure IdeateJson where
  angles : List Str := []
  hooks : List Str := []
  ctas : List Str := []
deriving DecidableEq

/-- The JSON shape consumed from DRAFT and REWRITE
(`pipeline.py` lines 176, 210-212). -/
structure DraftJson where
  content : Str
  is_thread : Bool := false
  thread_parts : List Str := []
  visual_prompt : Option Str := none
deriving DecidableEq

/-- The JSON shape consumed from QUALITY_CHECK (`pipeline.py` lines 315-318). -/
structure QualityJson where
  score : ℚ
  issues : List Str := []
  improvements : List Str := []
deriving DecidableEq

/-- Model of `DraftResult` (`pipeline.py` lines 36-48). -/
structure DraftResult where
  persona : Str
  content : Str
  is_thread : Bool
  thread_parts : List Str
  visual_prompt : Str
  issues : List Str
  quality_score : ℚ
  stage_history : List Str
  angle : Str := []
  hook : Str := []
  cta : Str := []
deriving DecidableEq

/-- The LLM responses for one persona's run, one per stage call in call
order: `qualityR k` answers the `k`-th QUALITY_CHECK call, `rewriteR k avoid`
the `k`-th REWRITE call (which was given `avoid` as its avoid-text). -/
structure PersonaEnv where
  scout : Except Unit Unit
  ideate : Except Unit IdeateJson
  style : Except Unit Unit
  hot_take : Except Unit Unit
  draftR : Except Unit DraftJson
  qualityR : ℕ → Except Unit QualityJson
  rewriteR : ℕ → Option Str → Except Unit DraftJson

/-- One executed stage call, for the execution trace (this instruments the
model; the source's `stage_history` list is a separate, recorded value). -/
inductive StageEv where
  | scout : StageEv
  | ideate : StageEv
  | style_transfer : StageEv
  | hot_take : StageEv
  | draft : StageEv
  | quality_check (call : ℕ) : StageEv
  | rewrite (call : ℕ) (avoid_text : Option Str) : StageEv
deriving DecidableEq

/-- Is a trace event a REWRITE call? -/
def isRewriteEv : StageEv → Bool
  | .rewrite _ _ => true
  | _ => false

/-- The bland-opener stoplist (`pipeline.py` line 335). -/
def blandHooks : List Str :=
  [S "interesting", S "thoughts", S "just", S "maybe", S "could be"]

/-- The vague-quantifier stoplist (`pipeline.py` line 340). -/
def vagueTerms : List Str :=
  [S "something", S "things", S "various", S "some", S "many"]

/-- Model of `ContentPipeline._heuristic_issues` (`pipeline.py` lines 332-353). -/
def heuristicIssues (content : Str) (persona : PersonaProfile) : List Str :=
  let lower := pyLower content
  let i1 := if blandHooks.any (fun b => isSubstring b (lower.take 80))
    then [S "Bland hook"] else []
  let i2 := if lower.count '?' = 0 then [S "Weak CTA"] else []
  let i3 := if vagueTerms.any (fun v => isSubstring v lower)
    then [S "Vague claim"] else []
  let tokens := findallWords lower
  let bigrams := (tokens.zip tokens.tail).map (fun p => p.1 ++ S " " ++ p.2)
  let i4 := if bigrams.any (fun bg => 2 ≤ bigrams.count bg)
    then [S "Repetition"] else []
  let i5 := (persona.forbidden_phrases.filter
      (fun b => isSubstring (pyLower b) lower)).map
      (fun b => S "Forbidden phrase: " ++ b)
  i1 ++ i2 ++ i3 ++ i4 ++ i5

/-- The issue union of `_stage_quality` (`pipeline.py` lines 305-318):
heuristic issues plus the LLM critique's issues, de-duplicated as a set
(Python's `list(set(...))` iteration order is unspecified; the model keeps
first occurrences — all properties proved about it are membership facts). -/
def stageQuality (persona : PersonaProfile) (draftContent : Str)
    (r : QualityJson) : QualityJson :=
  { r with issues := (heuristicIssues draftContent persona ++ r.issues).dedup }

/-- The conditional-rewrite loop of `_run_for_persona` (`pipeline.py` lines
168-174), compiled with the remaining budget `max_revision_passes - passes`
as structural fuel (the source guard `passes < max_passes` is exactly
`0 < remaining`).  Returns the outcome, the final `passes` counter, and the
executed-call trace. -/
def revisionGo (cfg : PipelineCfg) (persona : PersonaProfile) (env : PersonaEnv) :
    ℕ → ℕ → DraftJson → QualityJson →
    Except Unit (DraftJson × QualityJson) × ℕ × List StageEv
  | 0, passes, draft, quality => (.ok (draft, quality), passes, [])
  | remaining + 1, passes, draft, quality =>
    if quality.score < cfg.quality_min_score ∨ quality.issues ≠ [] then
      match env.rewriteR passes none with
      | .error _ => (.error (), passes, [.rewrite passes none])
      | .ok draft' =>
        match (env.qualityR (passes + 1)).map (stageQuality persona draft'.content) with
        | .error _ => (.error (), passes,
            [.rewrite passes none, .quality_check (passes + 1)])
        | .ok quality' =>
          let r := revisionGo cfg persona env remaining (passes + 1) draft' quality'
          (r.1, r.2.1, .rewrite passes none :: .quality_check (passes + 1) :: r.2.2)
    else (.ok (draft, quality), passes, [])

/-- Entry point of the rewrite loop (`passes = 0`). -/
def revisionLoop (cfg : PipelineCfg) (persona : PersonaProfile) (env : PersonaEnv)
    (draft : DraftJson) (quality : QualityJson) :
    Except Unit (DraftJson × QualityJson) × ℕ × List StageEv :=
  revisionGo cfg persona env cfg.max_revision_passes 0 draft quality

/-- Everything `_run_for_persona` computes before the dedupe gate
(`pipeline.py` lines 147-182): the six fixed stages, the rewrite loop, the
strip, and the hashtag / length guardrails. -/
structure PreGateOut where
  ideate : IdeateJson
  draft : DraftJson
  quality : QualityJson
  /-- Model of `draft["content"].strip()` before the length guardrail. -/
  stripped : Str
  /-- The content after the guardrails (what reaches the dedupe gate). -/
  content : Str
  passes : ℕ
  trace : List StageEv
  stage_history : List Str
deriving DecidableEq

/-- Model of `_run_for_persona` up to the dedupe gate (`pipeline.py` lines 147-182).
`stage_history` receives one append per fixed stage, exactly as in the
source (the rewrite loop appends nothing to it). -/
def preGate (cfg : PipelineCfg) (persona : PersonaProfile) (env : PersonaEnv) :
    Except Unit PreGateOut :=
  match env.scout with
  | .error e => .error e
  | .ok _ =>
  match env.ideate with
  | .error e => .error e
  | .ok ideate =>
  match env.style with
  | .error e => .error e
  | .ok _ =>
  match env.hot_take with
  | .error e => .error e
  | .ok _ =>
  match env.draftR with
  | .error e => .error e
  | .ok draft0 =>
  match (env.qualityR 0).map (stageQuality persona draft0.content) with
  | .error e => .error e
  | .ok quality0 =>
  match (revisionLoop cfg persona env draft0 quality0).1 with
  | .error e => .error e
  | .ok dq =>
    let stripped := pyStrip dq.1.content
    let quality1 :=
      if stripped.contains '#'
      then { dq.2 with issues := dq.2.issues ++ [S "Contains hashtags (forbidden)"] }
      else dq.2
    let content :=
      if MAX_POST_LENGTH < stripped.length
      then stripped.take (MAX_POST_LENGTH - 1) ++ ['…']
      else stripped
    let quality2 :=
      if MAX_POST_LENGTH < stripped.length
      then { quality1 with issues := quality1.issues ++ [S "Trimmed over length limit"] }
      else quality1
    .ok { ideate := ideate, draft := dq.1, quality := quality2
          stripped := stripped, content := content
          passes := (revisionLoop cfg persona env draft0 quality0).2.1
          trace := [.scout, .ideate, .style_transfer, .hot_take, .draft,
                    .quality_check 0] ++ (revisionLoop cfg persona env draft0 quality0).2.2
          stage_history := (((((([] ++ [S "SCOUT"]) ++ [S "IDEATE"]) ++
              [S "STYLE_TRANSFER"]) ++ [S "HOT_TAKE"]) ++ [S "DRAFT"]) ++
              [S "QUALITY_CHECK"]) }

/-- Python `a or b` on an optional string (`draft.get("visual_prompt") or
topic.topic`): an absent or empty string falls back. -/
def pyOrStr (a : Option Str) (b : Str) : Str :=
  match a with
  | some s => if s = [] then b else s
  | none => b

/-- The `DraftResult(...)` constructor call (`pipeline.py` lines 207-219). -/
def mkDraftResult (topic : Str) (persona : PersonaProfile) (ideate : IdeateJson)
    (draft : DraftJson) (quality : QualityJson) (content : Str)
    (hist : List Str) : DraftResult :=
  { persona := persona.key
    content := content
    is_thread := draft.is_thread
    thread_parts := draft.thread_parts
    visual_prompt := pyOrStr draft.visual_prompt topic
    issues := quality.issues
    quality_score := quality.score
    stage_history := hist
    angle := ideate.angles.headD []
    hook := ideate.hooks.headD []
    cta := ideate.ctas.headD [] }

/-- Model of `ContentPipeline._run_for_persona` (`pipeline.py` lines 147-219): the
pre-gate computation followed by the dedupe gate.  Returns `ok none` when the
persona's draft is dropped (still a duplicate after the extra rewrite),
`ok (some dr)` with the updated dedupe store otherwise, and the
executed-call trace. -/
def runForPersona (cfg : PipelineCfg) (topic : Str) (persona : PersonaProfile)
    (env : PersonaEnv) (store : DedupeStore) (now : ℤ) :
    Except Unit (Option DraftResult × DedupeStore × List StageEv) :=
  match preGate cfg persona env with
  | .error e => .error e
  | .ok pg =>
  if cfg.dedupe_enabled then
    let r1 := dedupeCheck store persona.key pg.content cfg.dedupe_threshold
        cfg.dedupe_window_hours now
    if r1.is_duplicate then
      let quality' := { pg.quality with
        issues := pg.quality.issues ++ [S "Duplicate similarity detected"] }
      match env.rewriteR pg.passes r1.matched_text with
      | .error e => .error e
      | .ok draft2 =>
        let content2 := pyStrip draft2.content
        let r2 := dedupeCheck store persona.key content2 cfg.dedupe_threshold
            cfg.dedupe_window_hours now
        let trace := pg.trace ++ [.rewrite pg.passes r1.matched_text]
        if r2.is_duplicate then
          .ok (none, store, trace)
        else
          .ok (some (mkDraftResult topic persona pg.ideate draft2 quality'
                content2 pg.stage_history),
              dedupeAdd store persona.key content2 now, trace)
    else
      .ok (some (mkDraftResult topic persona pg.ideate pg.draft pg.quality
            pg.content pg.stage_history),
          dedupeAdd store persona.key pg.content now, pg.trace)
  else
    .ok (some (mkDraftResult topic persona pg.ideate pg.draft pg.quality
          pg.content pg.stage_history),
        store, pg.trace)

/-! ### `ContentPipeline.run` (`pipeline.py` lines 92-134) -/

/-- The `{content, is_thread, thread_parts, suggested_hashtags}` slot of a
content pack (`pipeline.py` lines 356-365); absent personas get the empty
placeholder. -/
structure PersonaPost where
  content : Str := []
  is_thread : Bool := false
  thread_parts : List Str := []
deriving DecidableEq

/-- Model of `persona_entry` inside `_build_content_pack`. -/
def personaEntry (pp : List (Str × DraftResult)) (key : Str) : PersonaPost :=
  match pp.find? (fun e => e.1 = key) with
  | some e => ⟨e.2.content, e.2.is_thread, e.2.thread_parts⟩
  | none => {}

/-- The content-pack fields assembled by `_build_content_pack`
(`pipeline.py` lines 355-385) that the model represents. -/
structure ContentPack where
  source_topic : Str
  quality_score : ℚ
  pro_post : PersonaPost
  work_post : PersonaPost
  degen_post : PersonaPost
deriving DecidableEq

/-- Model of `_build_content_pack` (`pipeline.py` lines 355-385). -/
def buildContentPack (topic : Str) (pp : List (Str × DraftResult)) : ContentPack :=
  { source_topic := topic
    quality_score := (pp.map (fun e => e.2.quality_score)).sum / (max pp.length 1 : ℕ)
    pro_post := personaEntry pp (S "pro")
    work_post := personaEntry pp (S "work")
    degen_post := personaEntry pp (S "degen") }

/-- Model of `PipelineResult` (`pipeline.py` lines 51-57); `per_persona` is an
association list in insertion order. -/
structure PipelineResult where
  content_pack : Option ContentPack
  per_persona : List (Str × DraftResult)
  dry_run : Bool
  skipped : List Str
deriving DecidableEq

/-- The persona loop of `run` (`pipeline.py` lines 105-117): exceptions and
dropped drafts append to `skipped`; successes append to `per_persona`; the
dedupe store threads through. -/
def runLoop (cfg : PipelineCfg) (topic : Str) (envs : Str → PersonaEnv) (now : ℤ) :
    List PersonaProfile → DedupeStore →
    List (Str × DraftResult) × List Str × DedupeStore
  | [], store => ([], [], store)
  | p :: rest, store =>
    match runForPersona cfg topic p (envs p.key) store now with
    | .error _ =>
      let r := runLoop cfg topic envs now rest store
      (r.1, p.key :: r.2.1, r.2.2)
    | .ok (none, store', _) =>
      let r := runLoop cfg topic envs now rest store'
      (r.1, p.key :: r.2.1, r.2.2)
    | .ok (some dr, store', _) =>
      let r := runLoop cfg topic envs now rest store'
      ((p.key, dr) :: r.1, r.2.1, r.2.2)

/-- Model of `ContentPipeline.run` (`pipeline.py` lines 92-134): run every requested
persona, and return `content_pack = none` with an empty `per_persona` when no
persona produced a draft, the assembled pack otherwise.  (The queue write and
export happen only on the non-empty branch and are outside the model.) -/
def pipelineRun (cfg : PipelineCfg) (topic : Str) (personas : List PersonaProfile)
    (envs : Str → PersonaEnv) (store : DedupeStore) (now : ℤ) (dry_run : Bool) :
    PipelineResult :=
  let r := runLoop cfg topic envs now personas store
  if r.1 = [] then
    { content_pack := none, per_persona := [], dry_run := dry_run, skipped := r.2.1 }
  else
    { content_pack := some (buildContentPack topic r.1), per_persona := r.1
      dry_run := dry_run, skipped := r.2.1 }

/-! ### Observers on `runForPersona` results -/

/-- Did the persona's stage sequence complete without raising? -/
def runOk (r : Except Unit (Option DraftResult × DedupeStore × List StageEv)) : Bool :=
  match r with
  | .ok _ => true
  | .error _ => false

/-- The returned `DraftResult`, when one was produced. -/
def runDraft (r : Except Unit (Option DraftResult × DedupeStore × List StageEv)) :
    Option DraftResult :=
  match r with
  | .ok (d, _, _) => d
  | .error _ => none

/-- The executed-call trace (empty for a raised run). -/
def runTrace (r : Except Unit (Option DraftResult × DedupeStore × List StageEv)) :
    List StageEv :=
  match r with
  | .ok (_, _, tr) => tr
  | .error _ => []

/-- The final content, `[]` when no draft was produced. -/
def finalContent (r : Except Unit (Option DraftResult × DedupeStore × List StageEv)) :
    Str :=
  match runDraft r with
  | some d => d.content
  | none => []

/-- The final issue list, `[]` when no draft was produced. -/
def finalIssues (r : Except Unit (Option DraftResult × DedupeStore × List StageEv)) :
    List Str :=
  match runDraft r with
  | some d => d.issues
  | none => []

/-- The final `stage_history`, `[]` when no draft was produced. -/
def finalHistory (r : Except Unit (Option DraftResult × DedupeStore × List StageEv)) :
    List Str :=
  match runDraft r with
  | some d => d.stage_history
  | none => []

/-- The dedupe store returned by the run (`[]` for a raised run). -/
def runStore (r : Except Unit (Option DraftResult × DedupeStore × List StageEv)) :
    DedupeStore :=
  match r with
  | .ok (_, st, _) => st
  | .error _ => []

/-! ### Observers on `preGate` results -/

/-- Did the stages up to the dedupe gate complete without raising? -/
def preOk (cfg : PipelineCfg) (persona : PersonaProfile) (env : PersonaEnv) : Bool :=
  match preGate cfg persona env with
  | .ok _ => true
  | .error _ => false

/-- The guarded content reaching the dedupe gate (`[]` for a raised run). -/
def preContent (cfg : PipelineCfg) (persona : PersonaProfile) (env : PersonaEnv) : Str :=
  match preGate cfg persona env with
  | .ok pg => pg.content
  | .error _ => []

/-- The stripped pre-truncation content (`[]` for a raised run). -/
def preStripped (cfg : PipelineCfg) (persona : PersonaProfile) (env : PersonaEnv) : Str :=
  match preGate cfg persona env with
  | .ok pg => pg.stripped
  | .error _ => []

/-- The issue list after the guardrail appends (`[]` for a raised run). -/
def preIssues (cfg : PipelineCfg) (persona : PersonaProfile) (env : PersonaEnv) :
    List Str :=
  match preGate cfg persona env with
  | .ok pg => pg.quality.issues
  | .error _ => []

/-- The rewrite-pass counter after the quality loop (`0` for a raised run). -/
def prePasses (cfg : PipelineCfg) (persona : PersonaProfile) (env : PersonaEnv) : ℕ :=
  match preGate cfg persona env with
  | .ok pg => pg.passes
  | .error _ => 0

/-- The executed-call trace up to the dedupe gate (`[]` for a raised run). -/
def preTrace (cfg : PipelineCfg) (persona : PersonaProfile) (env : PersonaEnv) :
    List StageEv :=
  match preGate cfg persona env with
  | .ok pg => pg.trace
  | .error _ => []

/-- The first dedupe-gate check of `_run_for_persona` (`pipeline.py` lines
186-191), applied to the guarded content. -/
def gateCheck1 (cfg : PipelineCfg) (persona : PersonaProfile) (env : PersonaEnv)
    (store : DedupeStore) (now : ℤ) : DedupeResult :=
  dedupeCheck store persona.key (preContent cfg persona env) cfg.dedupe_threshold
    cfg.dedupe_window_hours now

/-- The outcome of a persona run that raised or was dropped by the dedupe
gate — the two ways a persona ends up in `skipped` (`pipeline.py` lines
107-115). -/
def failsOrDrops (r : Except Unit (Option DraftResult × DedupeStore × List StageEv)) :
    Prop :=
  match r with
  | .error _ => True
  | .ok (none, _, _) => True
  | .ok (some _, _, _) => False

/-! ### Fixtures for the eviction analysis of the cache -/

/-- A fresh cache with the given TTL and ceiling (`LLMCache.__init__` with an
empty table). -/
def emptyCache (ttl maxE : ℤ) : LLMCache ℕ V :=
  { entries := [], ttl_seconds := ttl, max_entries := maxE }

/-- The entry produced by the `i`-th insertion of `insertSeq`: key `i`,
value `v i`, created at time `i` (strictly increasing, all distinct). -/
def seqEntry (v : ℕ → V) (i : ℕ) : CacheEntry ℕ V := ⟨i, v i, (i : ℤ)⟩

/-- Insert `n` distinct keys `0, …, n-1` at strictly increasing creation
times `0, …, n-1` into a fresh cache. -/
def insertSeq (ttl maxE : ℤ) (v : ℕ → V) (n : ℕ) : LLMCache ℕ V :=
  (List.range n).foldl (fun c i => cacheSet c i (v i) (i : ℤ)) (emptyCache ttl maxE)

/-! ### Concrete pipeline fixtures

Concrete configurations, environments, and stores used to evaluate the model
at specific inputs. -/

/-- A persona with no forbidden phrases. -/
def proPersona : PersonaProfile := ⟨S "pro", []⟩

/-- A pipeline configuration with the source defaults except that the
quality loop is capped at zero passes, so the dedupe gate is reached
directly. -/
def cfgNoLoop : PipelineCfg := { max_revision_passes := 0 }

/-- A pipeline configuration with the source defaults and the dedupe gate
disabled. -/
def cfgNoDedupe : PipelineCfg := { dedupe_enabled := false }

/-- A dedupe store already holding one recent draft for persona `pro`. -/
def storeWithDraft : DedupeStore := [⟨S "pro", S "privacy infra is shipping fast", 0⟩]

/-- An environment whose DRAFT equals the stored draft of `storeWithDraft`
(so the first gate check flags a duplicate) and whose REWRITE returns a
281-character post sharing no shingle with the store. -/
def envLongRewrite : PersonaEnv :=
  { scout := .ok (), ideate := .ok {}, style := .ok (), hot_take := .ok ()
    draftR := .ok { content := S "privacy infra is shipping fast" }
    qualityR := fun _ => .ok { score := 8 }
    rewriteR := fun _ _ => .ok { content := List.replicate 281 'a' } }

/-- An environment like `envLongRewrite` whose REWRITE instead returns a
short post containing a `#` character and sharing no shingle with the
store. -/
def envHashRewrite : PersonaEnv :=
  { scout := .ok (), ideate := .ok {}, style := .ok (), hot_take := .ok ()
    draftR := .ok { content := S "privacy infra is shipping fast" }
    qualityR := fun _ => .ok { score := 8 }
    rewriteR := fun _ _ => .ok { content := S "fresh cooking ideas #food" } }

/-- An environment whose first QUALITY_CHECK fails on score (5 < 7), so one
quality-triggered REWRITE runs, and whose second QUALITY_CHECK passes. -/
def envOneRewrite : PersonaEnv :=
  { scout := .ok (), ideate := .ok {}, style := .ok (), hot_take := .ok ()
    draftR := .ok { content := S "Will rollups win the modular data layer?" }
    qualityR := fun k => .ok (if k = 0 then { score := 5 } else { score := 9 })
    rewriteR := fun _ _ => .ok { content := S "Will rollups win the modular data layer?" } }

/-- An environment whose single QUALITY_CHECK passes with no issues (the
draft has a question mark and trips no heuristic). -/
def envClean : PersonaEnv :=
  { scout := .ok (), ideate := .ok {}, style := .ok (), hot_take := .ok ()
    draftR := .ok { content := S "Will rollups win the modular data layer?" }
    qualityR := fun _ => .ok { score := 8 }
    rewriteR := fun _ _ => .ok { content := S "Will rollups win the modular data layer?" } }

/-- An environment like `envClean` whose draft is a 300-character post
(one `?` then 299 word characters), hitting the truncation guardrail. -/
def envLongDraft : PersonaEnv :=
  { scout := .ok (), ideate := .ok {}, style := .ok (), hot_take := .ok ()
    draftR := .ok { content := '?' :: List.replicate 299 'b' }
    qualityR := fun _ => .ok { score := 8 }
    rewriteR := fun _ _ => .ok { content := '?' :: List.replicate 299 'b' } }

/-- An environment like `envClean` whose draft contains a `#` character. -/
def envHashDraft : PersonaEnv :=
  { scout := .ok (), ideate := .ok {}, style := .ok (), hot_take := .ok ()
    draftR := .ok { content := S "Who wins the rollup race? #alpha" }
    qualityR := fun _ => .ok { score := 8 }
    rewriteR := fun _ _ => .ok { content := S "Who wins the rollup race? #alpha" } }

/-- An environment whose SCOUT stage raises. -/
def envScoutFails : PersonaEnv :=
  { scout := .error (), ideate := .ok {}, style := .ok (), hot_take := .ok ()
    draftR := .ok { content := S "x" }
    qualityR := fun _ => .ok { score := 8 }
    rewriteR := fun _ _ => .ok { content := S "x" } }

/-- A second persona with no forbidden phrases. -/
def workPersona : PersonaProfile := ⟨S "work", []⟩

/-- An environment whose DRAFT equals the stored draft of `storeWithDraft`
and whose REWRITE returns that same text, so both dedupe-gate checks flag a
duplicate and the persona's draft is dropped. -/
def envBothDup : PersonaEnv :=
  { scout := .ok (), ideate := .ok {}, style := .ok (), hot_take := .ok ()
    draftR := .ok { content := S "privacy infra is shipping fast" }
    qualityR := fun _ => .ok { score := 8 }
    rewriteR := fun _ _ => .ok { content := S "privacy infra is shipping fast" } }

/-! ## Supporting lemmas -/

section JaccardLemmas

theorem ngrams_nodup (tokens : List Str) (n : ℕ) : (ngrams tokens n).Nodup := by
  unfold ngrams
  split
  · exact List.nodup_dedup tokens
  · exact List.nodup_dedup _

theorem setInterCard_self (ta : List Str) : setInterCard ta ta = ta.length := by
  unfold setInterCard
  rw [List.filter_eq_self.mpr]
  intro a ha
  simpa using ha

theorem setUnionCard_self (ta : List Str) : setUnionCard ta ta = ta.length := by
  unfold setUnionCard
  rw [List.filter_eq_nil_iff.mpr]
  · simp
  · intro a ha
    simpa using ha

end JaccardLemmas

/-! ## C4: algebraic properties of `jaccard_similarity` -/

/-- C4: for every text with at least one shingle, self-similarity is exactly
`1.0`; similarity is `0.0` for disjoint shingle sets, in particular whenever
either side's shingle set is empty (no division by zero); and texts with
fewer than 3 normalised tokens fall back to whole-token shingle sets (the
normalisation itself — lower-casing, tokenising on alphanumeric-plus-apostrophe
runs keeping tokens of length > 1 — is `dnormalize`, used by `shingles`). -/
theorem C4_jaccard_similarity :
    (∀ t : Str, shingles t ≠ [] → jaccard_similarity t t 3 = 1) ∧
    (∀ a b : Str, (∀ x ∈ shingles a, x ∉ shingles b) → jaccard_similarity a b 3 = 0) ∧
    (∀ a b : Str, shingles a = [] ∨ shingles b = [] → jaccard_similarity a b 3 = 0) ∧
    (∀ t : Str, (dnormalize t).length < 3 → shingles t = (dnormalize t).dedup) := by
  refine ⟨?_, ?_, ?_, ?_⟩
  · intro t ht
    have ht' : ngrams (dnormalize t) 3 ≠ [] := ht
    simp only [jaccard_similarity]
    rw [if_neg (by simp [ht'])]
    rw [setInterCard_self, setUnionCard_self]
    have hlen : ((ngrams (dnormalize t) 3).length : ℚ) ≠ 0 := by
      exact_mod_cast fun h => ht' (List.length_eq_zero.mp h)
    exact div_self hlen
  · intro a b hdisj
    simp only [jaccard_similarity]
    by_cases hemp : ngrams (dnormalize a) 3 = [] ∨ ngrams (dnormalize b) 3 = []
    · rw [if_pos hemp]
    · rw [if_neg hemp]
      have hzero : setInterCard (ngrams (dnormalize a) 3) (ngrams (dnormalize b) 3) = 0 := by
        unfold setInterCard
        rw [List.filter_eq_nil_iff.mpr]
        · rfl
        · intro x hx
          simpa using hdisj x hx
      rw [hzero]
      simp
  · intro a b hemp
    have hemp' : ngrams (dnormalize a) 3 = [] ∨ ngrams (dnormalize b) 3 = [] := hemp
    simp only [jaccard_similarity]
    rw [if_pos hemp']
  · intro t h
    unfold shingles ngrams
    rw [if_pos h]

/-- Witness for C4 at concrete texts: `"privacy infra is shipping fast"` has
a non-empty shingle set and self-similarity `1.0`; it shares no shingle with
`"completely unrelated content about cooking"`, so their similarity is `0.0`;
and the empty text has similarity `0.0` with anything. -/
theorem C4_jaccard_similarity_witness :
    jaccard_similarity (S "privacy infra is shipping fast")
      (S "privacy infra is shipping fast") 3 = 1 ∧
    jaccard_similarity (S "privacy infra is shipping fast")
      (S "completely unrelated content about cooking") 3 = 0 ∧
    jaccard_similarity (S "") (S "privacy infra is shipping fast") 3 = 0 :=
  ⟨C4_jaccard_similarity.1 _ (by decide),
   C4_jaccard_similarity.2.1 _ _ (by decide),
   C4_jaccard_similarity.2.2.1 _ _ (Or.inl (by decide))⟩

/-! ## C3: the quality-gated revision loop is bounded -/

section RevisionLoopLemmas

theorem revisionGo_bounds (cfg : PipelineCfg) (persona : PersonaProfile)
    (env : PersonaEnv) (remaining : ℕ) :
    ∀ (passes : ℕ) (d : DraftJson) (q : QualityJson),
      (revisionGo cfg persona env remaining passes d q).2.2.countP isRewriteEv
          ≤ remaining ∧
      (revisionGo cfg persona env remaining passes d q).2.1 ≤ passes + remaining := by
  induction remaining with
  | zero =>
    intro passes d q
    simp [revisionGo]
  | succ n ih =>
    intro passes d q
    by_cases h : q.score < cfg.quality_min_score ∨ q.issues ≠ []
    · simp only [revisionGo, if_pos h]
      cases hrw : env.rewriteR passes none with
      | error e => simp [isRewriteEv, List.countP_cons]
      | ok d' =>
        cases hq : (env.qualityR (passes + 1)).map (stageQuality persona d'.content) with
        | error e => simp [hq, isRewriteEv, List.countP_cons]
        | ok q' =>
          have IH := ih (passes + 1) d' q'
          simp only [hq]
          constructor
          · simpa [List.countP_cons, isRewriteEv, Nat.add_comm] using
              Nat.add_le_add_right IH.1 1
          · simpa [Nat.add_assoc, Nat.add_comm 1 n] using IH.2
    · simp [revisionGo, if_neg h]

theorem revisionGo_not_triggered (cfg : PipelineCfg) (persona : PersonaProfile)
    (env : PersonaEnv) (remaining passes : ℕ) (d : DraftJson) (q : QualityJson)
    (h : ¬ (q.score < cfg.quality_min_score ∨ q.issues ≠ [])) :
    revisionGo cfg persona env remaining passes d q = (.ok (d, q), passes, []) := by
  cases remaining with
  | zero => rfl
  | succ n => simp [revisionGo, if_neg h]

theorem revisionGo_trace_nil_of_no_rewrite (cfg : PipelineCfg)
    (persona : PersonaProfile) (env : PersonaEnv) (remaining passes : ℕ)
    (d : DraftJson) (q : QualityJson)
    (h : (revisionGo cfg persona env remaining passes d q).2.2.countP isRewriteEv = 0) :
    (revisionGo cfg persona env remaining passes d q).2.2 = [] := by
  cases remaining with
  | zero => rfl
  | succ n =>
    by_cases hc : q.score < cfg.quality_min_score ∨ q.issues ≠ []
    · exfalso
      simp only [revisionGo, if_pos hc] at h
      cases hrw : env.rewriteR passes none with
      | error e => simp [hrw, List.countP_cons, isRewriteEv] at h
      | ok d' =>
        cases hq : (env.qualityR (passes + 1)).map (stageQuality persona d'.content) with
        | error e => simp [hrw, hq, List.countP_cons, isRewriteEv] at h
        | ok q' => simp [hrw, hq, List.countP_cons, isRewriteEv] at h
    · simp [revisionGo, if_neg hc]

end RevisionLoopLemmas

/-- C3: the revision loop is bounded.  For every environment (hence for every
sequence of QUALITY_CHECK results): the number of REWRITE calls it makes is
at most `max_revision_passes`; the returned pass counter is at most
`max_revision_passes`; the loop body runs only when the score is below
`quality_min_score` or the issue list is non-empty (otherwise it exits
immediately with zero passes and no calls); and with `max_revision_passes = 1`
at most one quality-triggered REWRITE call occurs. -/
theorem C3_revision_loop_bound (cfg : PipelineCfg) (persona : PersonaProfile)
    (env : PersonaEnv) (d : DraftJson) (q : QualityJson) :
    ((revisionLoop cfg persona env d q).2.2.countP isRewriteEv
        ≤ cfg.max_revision_passes) ∧
    ((revisionLoop cfg persona env d q).2.1 ≤ cfg.max_revision_passes) ∧
    (cfg.quality_min_score ≤ q.score ∧ q.issues = [] →
      revisionLoop cfg persona env d q = (.ok (d, q), 0, [])) ∧
    (cfg.max_revision_passes = 1 →
      (revisionLoop cfg persona env d q).2.2.countP isRewriteEv ≤ 1) := by
  have hb := revisionGo_bounds cfg persona env cfg.max_revision_passes 0 d q
  refine ⟨hb.1, by simpa using hb.2, ?_, ?_⟩
  · intro hq
    exact revisionGo_not_triggered cfg persona env cfg.max_revision_passes 0 d q
      (by push_neg; exact ⟨hq.1, hq.2⟩)
  · intro h1
    simpa [revisionLoop, h1] using hb.1

/-- Witness for C3 at a concrete configuration (`max_revision_passes = 1`,
`quality_min_score = 7`) and a passing quality result: the loop exits
immediately and performs at most one rewrite. -/
theorem C3_revision_loop_bound_witness :
    revisionLoop {} ⟨S "pro", []⟩
        { scout := .ok (), ideate := .ok {}, style := .ok (), hot_take := .ok ()
          draftR := .ok { content := S "x" }
          qualityR := fun _ => .ok { score := 8 }
          rewriteR := fun _ _ => .ok { content := S "x" } }
        { content := S "x" } { score := 8 } =
      (.ok ({ content := S "x" }, { score := 8 }), 0, []) ∧
    (revisionLoop {} ⟨S "pro", []⟩
        { scout := .ok (), ideate := .ok {}, style := .ok (), hot_take := .ok ()
          draftR := .ok { content := S "x" }
          qualityR := fun _ => .ok { score := 8 }
          rewriteR := fun _ _ => .ok { content := S "x" } }
        { content := S "x" } { score := 8 }).2.2.countP isRewriteEv ≤ 1 :=
  ⟨(C3_revision_loop_bound _ _ _ _ _).2.2.1 ⟨by decide, rfl⟩,
   (C3_revision_loop_bound _ _ _ _ _).2.2.2 rfl⟩

/-! ## C6: retry exhaustion in `generate_json` -/

section RetryLemmas

variable {J' : Type}

theorem runAttempts_all_fail (cfg : LLMConfig) (res : ℕ → Except Unit J')
    (h : ∀ k, res k = .error ()) :
    ∀ (fuel k : ℕ), runAttempts cfg res fuel k =
      ((List.range' k fuel).flatMap
        (fun i => [LLMEvent.modelCall i,
                   LLMEvent.sleep (cfg.backoff_seconds * (i + 1))]),
       Except.error ()) := by
  intro fuel
  induction fuel with
  | zero => intro k; simp [runAttempts]
  | succ n ih =>
    intro k
    simp only [runAttempts, h k, ih (k + 1), List.range'_succ, List.flatMap_cons,
      List.cons_append, List.nil_append]

theorem expectedFailEvents_eq_range' (b : ℚ) (n : ℕ) :
    expectedFailEvents (J := J') b n =
      (List.range' 0 n).flatMap
        (fun i => [LLMEvent.modelCall i, LLMEvent.sleep (b * (i + 1))]) := by
  unfold expectedFailEvents
  rw [List.range_eq_range']

theorem countP_expectedFailEvents (b : ℚ) (n : ℕ) :
    (expectedFailEvents (J := J') b n).countP isModelCall = n := by
  unfold expectedFailEvents
  induction n with
  | zero => simp
  | succ m ih =>
    rw [List.range_succ]
    simp only [List.flatMap_append, List.flatMap_cons, List.flatMap_nil,
      List.countP_append, ih]
    simp [List.countP_cons, isModelCall]

end RetryLemmas

/-- C6: when every underlying model attempt fails, `generate_json` (on a
cache miss or with caching disabled) performs exactly `max_retries` model
calls — in particular at most the configured maximum — sleeping
`backoff_seconds * attempt` after the `attempt`-th failure (1-based, so the
delay between consecutive attempts grows linearly), and its outcome is a
raised error, never a silent return. -/
theorem C6_retry_exhaustion (cfg : LLMConfig) (cache : Option (LLMCache CacheKey J))
    (now : ℤ) (stage persona prompt : Str) (res : ℕ → Except Unit J)
    (hfail : ∀ k, res k = .error ())
    (hmiss : cacheLookup cache (cache_key stage persona cfg.model prompt) now = none) :
    (generate_json cfg cache now stage persona prompt res).1 =
      .rateLimit :: expectedFailEvents cfg.backoff_seconds cfg.max_retries ∧
    (generate_json cfg cache now stage persona prompt res).2.1 = .error () ∧
    ((generate_json cfg cache now stage persona prompt res).1.countP
        isModelCall) = cfg.max_retries := by
  have hrun : runAttempts cfg res cfg.max_retries 0 =
      (expectedFailEvents cfg.backoff_seconds cfg.max_retries, Except.error ()) := by
    rw [runAttempts_all_fail cfg res hfail cfg.max_retries 0,
      expectedFailEvents_eq_range']
  have hmain : (generate_json cfg cache now stage persona prompt res).1 =
      .rateLimit :: expectedFailEvents cfg.backoff_seconds cfg.max_retries ∧
      (generate_json cfg cache now stage persona prompt res).2.1 = .error () := by
    cases cache with
    | none =>
      constructor <;> simp [generate_json, hrun]
    | some c =>
      rcases hg : cacheGet c (cache_key stage persona cfg.model prompt) now with ⟨o, c'⟩
      have ho : o = none := by
        have := hmiss
        simp only [cacheLookup, hg] at this
        exact this
      subst ho
      constructor <;> simp [generate_json, hg, hrun]
  refine ⟨hmain.1, hmain.2, ?_⟩
  rw [hmain.1, List.countP_cons, countP_expectedFailEvents]
  simp [isModelCall]

/-- Witness for C6: with `max_retries = 2`, `backoff_seconds = 10`, no cache,
and an always-failing model, the trace is exactly the rate-limit gate, two
attempts with linear backoff sleeps (10s then 20s), and the outcome is an
error. -/
theorem C6_retry_exhaustion_witness :
    (generate_json ⟨S "m", 2, 10, 5⟩ (none : Option (LLMCache CacheKey ℕ)) 0
        (S "SCOUT") (S "pro") (S "p") (fun _ => .error ())).1 =
      .rateLimit :: expectedFailEvents 10 2 ∧
    (generate_json ⟨S "m", 2, 10, 5⟩ (none : Option (LLMCache CacheKey ℕ)) 0
        (S "SCOUT") (S "pro") (S "p") (fun _ => .error ())).2.1 = .error () ∧
    ((generate_json ⟨S "m", 2, 10, 5⟩ (none : Option (LLMCache CacheKey ℕ)) 0
        (S "SCOUT") (S "pro") (S "p") (fun _ => .error ())).1.countP
        isModelCall) = 2 :=
  C6_retry_exhaustion ⟨S "m", 2, 10, 5⟩ none 0 (S "SCOUT") (S "pro") (S "p")
    (fun _ => .error ()) (fun _ => rfl) rfl

/-! ## C7: the cache-hit fast path of `generate_json` -/

/-- C7: the cache key is a function of exactly `(stage, persona, model,
prompt)` (see `cache_key`, which models the field-sorted-serialization digest
— same four inputs, same key, by definition), and when caching is enabled and
the cache yields a non-expired entry for that key, `generate_json` returns
the cached value immediately: its event trace is exactly one `cached` usage
record — no model call, no rate-limit gate, no backoff sleep, no cache write
— and the cache state is the one returned by the lookup (only its hit
counter advanced). -/
theorem C7_cache_hit (cfg : LLMConfig) (c : LLMCache CacheKey J) (now : ℤ)
    (stage persona prompt : Str) (res : ℕ → Except Unit J) (v : J)
    (c' : LLMCache CacheKey J)
    (h : cacheGet c (cache_key stage persona cfg.model prompt) now = (some v, c')) :
    generate_json cfg (some c) now stage persona prompt res =
      ([.usage true], .ok v, some c') ∧
    (generate_json cfg (some c) now stage persona prompt res).1.countP isModelCall = 0 ∧
    (∀ e ∈ (generate_json cfg (some c) now stage persona prompt res).1,
      e = LLMEvent.usage true) := by
  have hmain : generate_json cfg (some c) now stage persona prompt res =
      ([.usage true], .ok v, some c') := by
    simp [generate_json, h]
  refine ⟨hmain, ?_, ?_⟩
  · rw [hmain]
    simp [isModelCall]
  · rw [hmain]
    intro e he
    simpa using he

/-- Witness for C7: a concrete one-entry cache holding value `42` under the
key for `(SCOUT, pro, m, p)`, with `ttl_seconds = 100` and lookup at
`now = 5` (unexpired): `generate_json` returns `42` with a single cached
usage event, bumping only the hit counter. -/
theorem C7_cache_hit_witness :
    generate_json ⟨S "m", 3, 10, 5⟩
        (some ⟨[⟨cache_key (S "SCOUT") (S "pro") (S "m") (S "p"), (42 : ℕ), 0⟩],
          100, 10, {}⟩) 5 (S "SCOUT") (S "pro") (S "p") (fun _ => .error ()) =
      ([.usage true], .ok 42,
        some ⟨[⟨cache_key (S "SCOUT") (S "pro") (S "m") (S "p"), 42, 0⟩],
          100, 10, ⟨1, 0⟩⟩) :=
  (C7_cache_hit ⟨S "m", 3, 10, 5⟩
      ⟨[⟨cache_key (S "SCOUT") (S "pro") (S "m") (S "p"), 42, 0⟩], 100, 10, {}⟩
      5 (S "SCOUT") (S "pro") (S "p") (fun _ => .error ()) 42
      ⟨[⟨cache_key (S "SCOUT") (S "pro") (S "m") (S "p"), 42, 0⟩], 100, 10, ⟨1, 0⟩⟩
      (by decide)).1

/-! ## C5: cache entry-count invariant and oldest-first eviction -/

section CacheLemmas

theorem pairwise_lt_range'_one : ∀ (c s : ℕ), (List.range' s c).Pairwise (· < ·) := by
  intro c
  induction c with
  | zero => intro s; simp
  | succ n ih =>
    intro s
    rw [List.range'_succ]
    refine List.Pairwise.cons ?_ (ih (s + 1))
    intro b hb
    rw [List.mem_range'] at hb
    omega

theorem find?_seqEntry_range' (v : ℕ → V) (k : ℕ) : ∀ (c s : ℕ),
    ((List.range' s c).map (seqEntry v)).find? (fun e => e.key = k) =
      if s ≤ k ∧ k < s + c then some (seqEntry v k) else none := by
  intro c
  induction c with
  | zero =>
    intro s
    rw [if_neg (by omega)]
    rfl
  | succ n ih =>
    intro s
    rw [List.range'_succ, List.map_cons, List.find?_cons]
    by_cases hs : s = k
    · subst hs
      have : (decide ((seqEntry v s).key = s)) = true := by simp [seqEntry]
      rw [this, if_pos (by omega)]
    · have : (decide ((seqEntry v s).key = k)) = false := by simp [seqEntry, hs]
      rw [this, ih (s + 1)]
      by_cases hk : s + 1 ≤ k ∧ k < s + 1 + n
      · rw [if_pos hk, if_pos (by omega)]
      · rw [if_neg hk, if_neg (by omega)]

theorem cacheSet_explicit (entries : List (CacheEntry ℕ V)) (ttl maxE : ℤ)
    (st : CacheStats) (key : ℕ) (val : V) (now : ℤ) :
    cacheSet ⟨entries, ttl, maxE, st⟩ key val now =
      enforceMaxEntries
        ⟨entries.filter (fun e => ¬ e.key = key) ++ [⟨key, val, now⟩], ttl, maxE, st⟩ :=
  rfl

theorem enforceMaxEntries_explicit (entries : List (CacheEntry ℕ V))
    (ttl maxE : ℤ) (st : CacheStats) :
    enforceMaxEntries (⟨entries, ttl, maxE, st⟩ : LLMCache ℕ V) =
      if maxE ≤ 0 then ⟨entries, ttl, maxE, st⟩
      else if (entries.length : ℤ) ≤ maxE then ⟨entries, ttl, maxE, st⟩
      else ⟨(entries.insertionSort (fun a b => a.created_at ≤ b.created_at)).drop
          (entries.length - maxE.toNat), ttl, maxE, st⟩ :=
  rfl

theorem insertSeq_eq (ttl : ℤ) (N : ℕ) (hN : 0 < N) (v : ℕ → V) :
    ∀ n : ℕ, insertSeq ttl (N : ℤ) v n =
      { entries := (List.range' (n - min n N) (min n N)).map (seqEntry v)
        ttl_seconds := ttl, max_entries := (N : ℤ) } := by
  intro n
  induction n with
  | zero => simp [insertSeq, emptyCache]
  | succ n ih =>
    have hstep : insertSeq ttl (N : ℤ) v (n + 1) =
        cacheSet (insertSeq ttl (N : ℤ) v n) n (v n) (n : ℤ) := by
      unfold insertSeq
      rw [List.range_succ, List.foldl_append]
      rfl
    rw [hstep, ih]
    set w := (List.range' (n - min n N) (min n N)).map (seqEntry v) with hw
    have hkeys : ∀ e ∈ w, e.key < n := by
      intro e he
      rw [hw, List.mem_map] at he
      obtain ⟨i, hi, rfl⟩ := he
      rw [List.mem_range'] at hi
      obtain ⟨j, hj, rfl⟩ := hi
      show n - min n N + 1 * j < n
      omega
    have hfilter : w.filter (fun e => ¬ e.key = (n : ℕ)) = w := by
      rw [List.filter_eq_self]
      intro e he
      simpa using Nat.ne_of_lt (hkeys e he)
    have hlenw : w.length = min n N := by
      rw [hw, List.length_map, List.length_range']
    rw [cacheSet_explicit, hfilter, enforceMaxEntries_explicit,
      if_neg (by omega)]
    have hlen2 : (w ++ [(⟨n, v n, (n : ℤ)⟩ : CacheEntry ℕ V)]).length = min n N + 1 := by
      rw [List.length_append, hlenw]
      rfl
    by_cases hcase : n < N
    · rw [if_pos (by rw [hlen2]; push_cast; omega)]
      have hmin : min n N = n := by omega
      have hmin' : min (n + 1) N = n + 1 := by omega
      simp only [hw, hmin, hmin', Nat.sub_self]
      congr 1
      rw [List.range'_1_concat, List.map_append]
      simp [seqEntry]
    · rw [if_neg (by rw [hlen2]; push_cast; omega)]
      have hmin : min n N = N := by omega
      have hmin' : min (n + 1) N = N := by omega
      have htimes : ∀ e ∈ w, e.created_at ≤ (n : ℤ) := by
        intro e he
        have hek := hkeys e he
        rw [hw, List.mem_map] at he
        obtain ⟨i, hi, rfl⟩ := he
        show (i : ℤ) ≤ (n : ℤ)
        exact_mod_cast Nat.le_of_lt (by simpa [seqEntry] using hek)
      have hsorted : List.Sorted (fun a b : CacheEntry ℕ V => a.created_at ≤ b.created_at)
          (w ++ [⟨n, v n, (n : ℤ)⟩]) := by
        rw [List.Sorted, List.pairwise_append]
        refine ⟨?_, by simp, ?_⟩
        · rw [hw]
          refine List.Pairwise.map _ ?_ (pairwise_lt_range'_one _ _)
          intro a b hab
          show ((a : ℕ) : ℤ) ≤ ((b : ℕ) : ℤ)
          exact_mod_cast Nat.le_of_lt hab
        · intro a ha b hb
          rw [List.mem_singleton] at hb
          subst hb
          exact htimes a ha
      rw [List.Sorted.insertionSort_eq hsorted]
      have hdroplen : (w ++ [(⟨n, v n, (n : ℤ)⟩ : CacheEntry ℕ V)]).length -
          ((N : ℤ)).toNat = 1 := by
        rw [hlen2, hmin]
        simp
      rw [hdroplen]
      have hwlen1 : 1 ≤ w.length := by rw [hlenw]; omega
      rw [List.drop_append_of_le_length hwlen1]
      congr 1
      have hrange : List.range' (n - N) N = (n - N) :: List.range' (n - N + 1) (N - 1) := by
        have h1 : N = (N - 1) + 1 := by omega
        calc List.range' (n - N) N = List.range' (n - N) ((N - 1) + 1) := by rw [← h1]
          _ = (n - N) :: List.range' (n - N + 1) (N - 1) := List.range'_succ _ _ _
      have hdropw : w.drop 1 =
          (List.range' (n - N + 1) (N - 1)).map (seqEntry v) := by
        rw [hw, hmin, ← List.map_drop, hrange]
        rfl
      rw [hdropw, hmin', show n + 1 - N = n - N + 1 by omega]
      have hconcat : List.range' (n - N + 1) N =
          List.range' (n - N + 1) (N - 1) ++ [n] := by
        have h1 : N = (N - 1) + 1 := by omega
        calc List.range' (n - N + 1) N
            = List.range' (n - N + 1) ((N - 1) + 1) := by rw [← h1]
          _ = List.range' (n - N + 1) (N - 1) ++ [n - N + 1 + (N - 1)] :=
              List.range'_1_concat _ _
          _ = List.range' (n - N + 1) (N - 1) ++ [n] := by
              rw [show n - N + 1 + (N - 1) = n by omega]
      rw [hconcat, List.map_append]
      simp [seqEntry]

end CacheLemmas

/-- C5: with `max_entries = N > 0`, the cache keeps the entry-count invariant
(at most `N` rows after every `set`) and evicts oldest-created entries first:
after inserting `N + M` distinct keys at strictly increasing creation times
into a fresh cache, `get` on each of the `M` oldest-inserted keys reports
absence, while each of the `N` most recently inserted keys is still
retrievable (reads never refresh creation times, so eviction order is
creation time, not access recency; the reads below are performed before the
TTL `ttl` expires anything). -/
theorem C5_cache_eviction (V : Type) [DecidableEq V] (N M : ℕ) (hN : 0 < N)
    (ttl : ℤ) (httl : (N : ℤ) + M ≤ ttl) (v : ℕ → V) :
    (∀ n : ℕ, (insertSeq ttl (N : ℤ) v n).entries.length ≤ N) ∧
    (∀ k : ℕ, k < M →
      (cacheGet (insertSeq ttl (N : ℤ) v (N + M)) k ((N : ℤ) + M - 1)).1 = none) ∧
    (∀ k : ℕ, M ≤ k → k < N + M →
      (cacheGet (insertSeq ttl (N : ℤ) v (N + M)) k ((N : ℤ) + M - 1)).1 =
        some (v k)) := by
  have hfin : insertSeq ttl (N : ℤ) v (N + M) =
      { entries := (List.range' M N).map (seqEntry v)
        ttl_seconds := ttl, max_entries := (N : ℤ) } := by
    rw [insertSeq_eq ttl N hN v (N + M),
      show min (N + M) N = N by omega, show N + M - N = M by omega]
  refine ⟨?_, ?_, ?_⟩
  · intro n
    rw [insertSeq_eq ttl N hN v n]
    show ((List.range' _ _).map (seqEntry v)).length ≤ N
    rw [List.length_map, List.length_range']
    omega
  · intro k hk
    rw [hfin]
    have hfind : ((List.range' M N).map (seqEntry v)).find? (fun e => e.key = k)
        = none := by
      rw [find?_seqEntry_range']
      exact if_neg (by omega)
    simp [cacheGet, hfind]
  · intro k hkM hk
    rw [hfin]
    have hfind : ((List.range' M N).map (seqEntry v)).find? (fun e => e.key = k)
        = some (seqEntry v k) := by
      rw [find?_seqEntry_range']
      exact if_pos (by omega)
    have hexp : isExpired
        (⟨(List.range' M N).map (seqEntry v), ttl, (N : ℤ), {}⟩ : LLMCache ℕ V)
        ((k : ℕ) : ℤ) ((N : ℤ) + M - 1) = false := by
      unfold isExpired
      exact decide_eq_false (by show ¬ (ttl < _); omega)
    simp [cacheGet, hfind, seqEntry] at hexp ⊢
    rw [hexp]
    simp [seqEntry]

/-- Witness for C5 at `N = 1`, `M = 1`, `ttl = 2`: after inserting keys 0 and
1, the oldest key 0 is absent and key 1 still retrievable, and the table never
holds more than one row. -/
theorem C5_cache_eviction_witness :
    (cacheGet (insertSeq 2 ((1 : ℕ) : ℤ) (fun i => i) (1 + 1)) 0
        (((1 : ℕ) : ℤ) + 1 - 1)).1 = none ∧
    (cacheGet (insertSeq 2 ((1 : ℕ) : ℤ) (fun i => i) (1 + 1)) 1
        (((1 : ℕ) : ℤ) + 1 - 1)).1 = some 1 ∧
    (insertSeq 2 ((1 : ℕ) : ℤ) (fun i => i) 2).entries.length ≤ 1 :=
  ⟨(C5_cache_eviction ℕ 1 1 (by decide) 2 (by decide) (fun i => i)).2.1 0 (by decide),
   (C5_cache_eviction ℕ 1 1 (by decide) 2 (by decide) (fun i => i)).2.2 1
     (by decide) (by decide),
   (C5_cache_eviction ℕ 1 1 (by decide) 2 (by decide) (fun i => i)).1 2⟩

/-! ## Guardrail structure of `preGate` -/

theorem preGate_ok_spec (cfg : PipelineCfg) (persona : PersonaProfile)
    (env : PersonaEnv) (pg : PreGateOut)
    (h : preGate cfg persona env = .ok pg) :
    pg.content.length ≤ 280 ∧
    (280 < pg.stripped.length →
      pg.content = pg.stripped.take 279 ++ ['…'] ∧
      S "Trimmed over length limit" ∈ pg.quality.issues) ∧
    (pg.stripped.length ≤ 280 → pg.content = pg.stripped) ∧
    (pg.stripped.contains '#' = true →
      S "Contains hashtags (forbidden)" ∈ pg.quality.issues) ∧
    pg.stage_history = [S "SCOUT", S "IDEATE", S "STYLE_TRANSFER", S "HOT_TAKE",
      S "DRAFT", S "QUALITY_CHECK"] ∧
    (pg.trace.countP isRewriteEv = 0 →
      pg.trace = [.scout, .ideate, .style_transfer, .hot_take, .draft,
        .quality_check 0]) := by
  unfold preGate at h
  cases hs : env.scout with
  | error e => simp only [hs] at h; exact Except.noConfusion h
  | ok u =>
  simp only [hs] at h
  cases hi : env.ideate with
  | error e => simp only [hi] at h; exact Except.noConfusion h
  | ok ideate =>
  simp only [hi] at h
  cases hst : env.style with
  | error e => simp only [hst] at h; exact Except.noConfusion h
  | ok u2 =>
  simp only [hst] at h
  cases hh : env.hot_take with
  | error e => simp only [hh] at h; exact Except.noConfusion h
  | ok u3 =>
  simp only [hh] at h
  cases hd : env.draftR with
  | error e => simp only [hd] at h; exact Except.noConfusion h
  | ok draft0 =>
  simp only [hd] at h
  cases hq : (env.qualityR 0).map (stageQuality persona draft0.content) with
  | error e => simp only [hq] at h; exact Except.noConfusion h
  | ok quality0 =>
  simp only [hq] at h
  cases hloop : (revisionLoop cfg persona env draft0 quality0).1 with
  | error e => simp only [hloop] at h; exact Except.noConfusion h
  | ok dq =>
  simp only [hloop, Except.ok.injEq] at h
  subst h
  dsimp only
  refine ⟨?_, ?_, ?_, ?_, by simp, ?_⟩
  · by_cases hlen : MAX_POST_LENGTH < (pyStrip dq.1.content).length
    · rw [if_pos hlen, List.length_append, List.length_take]
      simp only [MAX_POST_LENGTH, List.length_singleton]
      omega
    · rw [if_neg hlen]
      simp only [MAX_POST_LENGTH, not_lt] at hlen
      exact hlen
  · intro hlen
    have hlen' : MAX_POST_LENGTH < (pyStrip dq.1.content).length := hlen
    constructor
    · rw [if_pos hlen']
      rfl
    · rw [if_pos hlen']
      simp
  · intro hlen
    rw [if_neg (by simp only [MAX_POST_LENGTH, not_lt]; exact hlen)]
  · intro hhash
    have hmem : '#' ∈ pyStrip dq.1.content := by simpa using hhash
    by_cases hlen : MAX_POST_LENGTH < (pyStrip dq.1.content).length
    · rw [if_pos hlen]
      simp [hmem]
    · rw [if_neg hlen]
      simp [hmem]
  · intro hcount
    simp only [List.countP_append] at hcount
    have hpre : List.countP isRewriteEv
        [StageEv.scout, StageEv.ideate, StageEv.style_transfer, StageEv.hot_take,
         StageEv.draft, StageEv.quality_check 0] = 0 := by decide
    rw [hpre] at hcount
    have hnil := revisionGo_trace_nil_of_no_rewrite cfg persona env
      cfg.max_revision_passes 0 draft0 quality0 (by simpa [revisionLoop] using hcount)
    simp only [revisionLoop] at hnil ⊢
    rw [hnil, List.append_nil]

/-- On the paths where the final content is the guarded pre-gate content —
dedupe disabled, or first gate check not a duplicate — `runForPersona`
returns the pre-gate draft result and (when dedupe is enabled) records the
content into the store. -/
theorem runForPersona_not_dup (cfg : PipelineCfg) (topic : Str)
    (persona : PersonaProfile) (env : PersonaEnv) (store : DedupeStore) (now : ℤ)
    (pg : PreGateOut) (hpg : preGate cfg persona env = .ok pg)
    (hpath : cfg.dedupe_enabled = false ∨
      (dedupeCheck store persona.key pg.content cfg.dedupe_threshold
        cfg.dedupe_window_hours now).is_duplicate = false) :
    runForPersona cfg topic persona env store now =
      .ok (some (mkDraftResult topic persona pg.ideate pg.draft pg.quality
            pg.content pg.stage_history),
          (if cfg.dedupe_enabled then dedupeAdd store persona.key pg.content now
           else store),
          pg.trace) := by
  unfold runForPersona
  rw [hpg]
  rcases hpath with hfalse | hdup
  · simp [hfalse]
  · by_cases hde : cfg.dedupe_enabled
    · simp [hde, hdup]
    · simp [hde]

/-! ## C1: the length guardrail (corrected) -/

/-- C1 (amended): the truncation guardrail holds for the content produced by
the quality loop: the guarded content is at most 280 characters, and when the
stripped content exceeded 280 characters it equals exactly 279 characters
plus one ellipsis with a trimmed-over-length issue recorded.  On every return
path where the final content is that guarded content — dedupe disabled, or
the first dedupe check not a duplicate — the returned `DraftResult` inherits
these guarantees.  (The guardrail does **not** re-run on the content produced
by the dedupe-triggered extra rewrite; see the counterexample.) -/
theorem C1_truncation_amended (cfg : PipelineCfg) (topic : Str)
    (persona : PersonaProfile) (env : PersonaEnv) (store : DedupeStore) (now : ℤ)
    (hok : preOk cfg persona env = true) :
    (preContent cfg persona env).length ≤ 280 ∧
    (280 < (preStripped cfg persona env).length →
      preContent cfg persona env = (preStripped cfg persona env).take 279 ++ ['…'] ∧
      S "Trimmed over length limit" ∈ preIssues cfg persona env) ∧
    ((cfg.dedupe_enabled = false ∨
        (gateCheck1 cfg persona env store now).is_duplicate = false) →
      finalContent (runForPersona cfg topic persona env store now) =
        preContent cfg persona env ∧
      (finalContent (runForPersona cfg topic persona env store now)).length ≤ 280 ∧
      (280 < (preStripped cfg persona env).length →
        S "Trimmed over length limit" ∈
          finalIssues (runForPersona cfg topic persona env store now))) := by
  cases hpg : preGate cfg persona env with
  | error e => simp [preOk, hpg] at hok
  | ok pg =>
    have spec := preGate_ok_spec cfg persona env pg hpg
    simp only [preContent, preStripped, preIssues, gateCheck1, hpg]
    refine ⟨spec.1, fun hl => spec.2.1 hl, fun hpath => ?_⟩
    have hrun := runForPersona_not_dup cfg topic persona env store now pg hpg
      (by simpa [gateCheck1, preContent, hpg] using hpath)
    rw [hrun]
    refine ⟨rfl, spec.1, fun hl => ?_⟩
    simpa [finalIssues, runDraft, mkDraftResult] using (spec.2.1 hl).2

set_option maxRecDepth 100000 in
unseal Rat.mul Rat.inv in
/-- Counterexample for C1 as stated: with the default dedupe gate enabled and
a store already holding the drafted text, the dedupe-triggered extra rewrite
returns a 281-character post, and `_run_for_persona` returns it as the final
`DraftResult.content` — longer than 280 characters, untruncated, and with no
trimmed-over-length issue recorded. -/
theorem C1_truncation_counterexample :
    runOk (runForPersona cfgNoLoop (S "t") proPersona envLongRewrite
      storeWithDraft 0) = true ∧
    280 < (finalContent (runForPersona cfgNoLoop (S "t") proPersona envLongRewrite
      storeWithDraft 0)).length ∧
    S "Trimmed over length limit" ∉
      finalIssues (runForPersona cfgNoLoop (S "t") proPersona envLongRewrite
        storeWithDraft 0) := by
  decide

set_option maxRecDepth 100000 in
/-- Witness for C1 (amended) at a 300-character draft with dedupe disabled:
the guarded content is the 279-character prefix plus an ellipsis, the trim
issue is recorded, and the returned content is that guarded content. -/
theorem C1_truncation_amended_witness :
    preContent cfgNoDedupe proPersona envLongDraft =
      (preStripped cfgNoDedupe proPersona envLongDraft).take 279 ++ ['…'] ∧
    S "Trimmed over length limit" ∈ preIssues cfgNoDedupe proPersona envLongDraft ∧
    finalContent (runForPersona cfgNoDedupe (S "t") proPersona envLongDraft [] 0) =
      preContent cfgNoDedupe proPersona envLongDraft ∧
    (finalContent (runForPersona cfgNoDedupe (S "t") proPersona envLongDraft [] 0)).length
      ≤ 280 :=
  have h := C1_truncation_amended cfgNoDedupe (S "t") proPersona envLongDraft [] 0
    (by decide)
  ⟨(h.2.1 (by decide)).1, (h.2.1 (by decide)).2, (h.2.2 (Or.inl rfl)).1,
   (h.2.2 (Or.inl rfl)).2.1⟩

/-! ## C2: the hashtag guardrail (corrected) -/

/-- C2 (amended): on every return path where the final content is the guarded
pre-gate content — dedupe disabled, or the first dedupe check not a duplicate
— a `#` character in the final content implies the
"Contains hashtags (forbidden)" issue is present in the returned issue list,
regardless of the quality score.  (The hashtag check does **not** re-run on
the content produced by the dedupe-triggered extra rewrite; see the
counterexample.) -/
theorem C2_hashtag_amended (cfg : PipelineCfg) (topic : Str)
    (persona : PersonaProfile) (env : PersonaEnv) (store : DedupeStore) (now : ℤ)
    (hok : preOk cfg persona env = true)
    (hpath : cfg.dedupe_enabled = false ∨
      (gateCheck1 cfg persona env store now).is_duplicate = false)
    (hhash : '#' ∈ finalContent (runForPersona cfg topic persona env store now)) :
    S "Contains hashtags (forbidden)" ∈
      finalIssues (runForPersona cfg topic persona env store now) := by
  cases hpg : preGate cfg persona env with
  | error e => simp [preOk, hpg] at hok
  | ok pg =>
    have spec := preGate_ok_spec cfg persona env pg hpg
    have hrun := runForPersona_not_dup cfg topic persona env store now pg hpg
      (by simpa [gateCheck1, preContent, hpg] using hpath)
    rw [hrun] at hhash ⊢
    simp only [finalContent, finalIssues, runDraft, mkDraftResult] at hhash ⊢
    have hstr : '#' ∈ pg.stripped := by
      by_cases hlen : 280 < pg.stripped.length
      · obtain ⟨hcnt, -⟩ := spec.2.1 hlen
        rw [hcnt] at hhash
        rcases List.mem_append.mp hhash with hh | hh
        · exact List.mem_of_mem_take hh
        · simp at hh
      · rw [spec.2.2.1 (by omega)] at hhash
        exact hhash
    exact spec.2.2.2.1 (by simpa using hstr)

set_option maxRecDepth 100000 in
unseal Rat.mul Rat.inv in
/-- Counterexample for C2 as stated: when the final content comes from the
dedupe-triggered extra rewrite and contains `#`, no
"Contains hashtags (forbidden)" issue is recorded. -/
theorem C2_hashtag_counterexample :
    runOk (runForPersona cfgNoLoop (S "t") proPersona envHashRewrite
      storeWithDraft 0) = true ∧
    '#' ∈ finalContent (runForPersona cfgNoLoop (S "t") proPersona envHashRewrite
      storeWithDraft 0) ∧
    S "Contains hashtags (forbidden)" ∉
      finalIssues (runForPersona cfgNoLoop (S "t") proPersona envHashRewrite
        storeWithDraft 0) := by
  decide

/-- Witness for C2 (amended): a draft containing `#` run with dedupe disabled
gets the hashtag issue in its returned issue list. -/
theorem C2_hashtag_amended_witness :
    '#' ∈ finalContent (runForPersona cfgNoDedupe (S "t") proPersona envHashDraft [] 0) ∧
    S "Contains hashtags (forbidden)" ∈
      finalIssues (runForPersona cfgNoDedupe (S "t") proPersona envHashDraft [] 0) :=
  ⟨by decide,
   C2_hashtag_amended cfgNoDedupe (S "t") proPersona envHashDraft [] 0 (by decide)
     (Or.inl rfl) (by decide)⟩

/-! ## C10: `stage_history` (corrected) -/

/-- The raising path of `runForPersona`: a raised pre-gate stage raises the
persona run. -/
theorem runForPersona_error (cfg : PipelineCfg) (topic : Str)
    (persona : PersonaProfile) (env : PersonaEnv) (store : DedupeStore) (now : ℤ)
    (e : Unit) (hpg : preGate cfg persona env = .error e) :
    runForPersona cfg topic persona env store now = .error e := by
  unfold runForPersona
  rw [hpg]

/-- The dedupe-gate duplicate path of `runForPersona`: first check flags a
duplicate, one extra REWRITE runs with the matched text as avoid-text, and
the re-check decides between dropping the persona and returning the rewritten
content. -/
theorem runForPersona_dup_path (cfg : PipelineCfg) (topic : Str)
    (persona : PersonaProfile) (env : PersonaEnv) (store : DedupeStore) (now : ℤ)
    (pg : PreGateOut) (d2 : DraftJson)
    (hpg : preGate cfg persona env = .ok pg)
    (hde : cfg.dedupe_enabled = true)
    (hdup : (dedupeCheck store persona.key pg.content cfg.dedupe_threshold
        cfg.dedupe_window_hours now).is_duplicate = true)
    (hrw : env.rewriteR pg.passes
        (dedupeCheck store persona.key pg.content cfg.dedupe_threshold
          cfg.dedupe_window_hours now).matched_text = .ok d2) :
    runForPersona cfg topic persona env store now =
      (if (dedupeCheck store persona.key (pyStrip d2.content) cfg.dedupe_threshold
            cfg.dedupe_window_hours now).is_duplicate = true
       then .ok (none, store, pg.trace ++
          [.rewrite pg.passes
            (dedupeCheck store persona.key pg.content cfg.dedupe_threshold
              cfg.dedupe_window_hours now).matched_text])
       else .ok (some (mkDraftResult topic persona pg.ideate d2
            { pg.quality with
              issues := pg.quality.issues ++ [S "Duplicate similarity detected"] }
            (pyStrip d2.content) pg.stage_history),
          dedupeAdd store persona.key (pyStrip d2.content) now,
          pg.trace ++
          [.rewrite pg.passes
            (dedupeCheck store persona.key pg.content cfg.dedupe_threshold
              cfg.dedupe_window_hours now).matched_text])) := by
  unfold runForPersona
  rw [hpg]
  simp only [hde, if_true, hdup, hrw]

/-- C10 (amended): every returned `DraftResult` carries the fixed six-stage
history `[SCOUT, IDEATE, STYLE_TRANSFER, HOT_TAKE, DRAFT, QUALITY_CHECK]` —
the rewrite loop and the dedupe-gate rewrite never append to it — so
`stage_history` equals the stages actually executed exactly when no REWRITE
ran: for a run whose executed-call trace has no rewrite, that trace is
exactly the six fixed stage calls. -/
theorem C10_stage_history_amended (cfg : PipelineCfg) (topic : Str)
    (persona : PersonaProfile) (env : PersonaEnv) (store : DedupeStore) (now : ℤ)
    (hok : (runDraft (runForPersona cfg topic persona env store now)).isSome = true) :
    finalHistory (runForPersona cfg topic persona env store now) =
      [S "SCOUT", S "IDEATE", S "STYLE_TRANSFER", S "HOT_TAKE", S "DRAFT",
       S "QUALITY_CHECK"] ∧
    ((runTrace (runForPersona cfg topic persona env store now)).countP isRewriteEv = 0 →
      runTrace (runForPersona cfg topic persona env store now) =
        [.scout, .ideate, .style_transfer, .hot_take, .draft, .quality_check 0]) := by
  cases hpg : preGate cfg persona env with
  | error e =>
    rw [runForPersona_error cfg topic persona env store now e hpg] at hok
    simp [runDraft] at hok
  | ok pg =>
    have spec := preGate_ok_spec cfg persona env pg hpg
    by_cases hde : cfg.dedupe_enabled = true
    · by_cases hdup : (dedupeCheck store persona.key pg.content cfg.dedupe_threshold
          cfg.dedupe_window_hours now).is_duplicate = true
      · cases hrw : env.rewriteR pg.passes
            (dedupeCheck store persona.key pg.content cfg.dedupe_threshold
              cfg.dedupe_window_hours now).matched_text with
        | error e =>
          have herr : runForPersona cfg topic persona env store now = .error e := by
            unfold runForPersona
            rw [hpg]
            simp only [hde, if_true, hdup, hrw]
          rw [herr] at hok
          simp [runDraft] at hok
        | ok d2 =>
          have hrun := runForPersona_dup_path cfg topic persona env store now pg d2
            hpg hde hdup hrw
          by_cases hdup2 : (dedupeCheck store persona.key (pyStrip d2.content)
              cfg.dedupe_threshold cfg.dedupe_window_hours now).is_duplicate = true
          · rw [hrun, if_pos hdup2] at hok
            simp [runDraft] at hok
          · rw [hrun, if_neg hdup2]
            constructor
            · simpa [finalHistory, runDraft, mkDraftResult] using spec.2.2.2.2.1
            · intro hc
              simp [runTrace, List.countP_append, List.countP_cons, isRewriteEv] at hc
      · have hrun := runForPersona_not_dup cfg topic persona env store now pg hpg
          (Or.inr (by simpa using hdup))
        rw [hrun]
        refine ⟨by simpa [finalHistory, runDraft, mkDraftResult] using spec.2.2.2.2.1, ?_⟩
        intro hc
        simp only [runTrace] at hc ⊢
        exact spec.2.2.2.2.2 hc
    · have hrun := runForPersona_not_dup cfg topic persona env store now pg hpg
        (Or.inl (by simpa using hde))
      rw [hrun]
      refine ⟨by simpa [finalHistory, runDraft, mkDraftResult] using spec.2.2.2.2.1, ?_⟩
      intro hc
      simp only [runTrace] at hc ⊢
      exact spec.2.2.2.2.2 hc

/-- Counterexample for C10 as stated: with `max_revision_passes = 1` and a
first QUALITY_CHECK score below the threshold, a REWRITE executes (it is in
the executed-call trace) but the returned `stage_history` does not contain
`"REWRITE"` — the source never appends loop stages to `stage_history`. -/
theorem C10_stage_history_counterexample :
    runOk (runForPersona cfgNoDedupe (S "t") proPersona envOneRewrite [] 0) = true ∧
    StageEv.rewrite 0 none ∈
      runTrace (runForPersona cfgNoDedupe (S "t") proPersona envOneRewrite [] 0) ∧
    S "REWRITE" ∉
      finalHistory (runForPersona cfgNoDedupe (S "t") proPersona envOneRewrite [] 0) := by
  decide

/-- Witness for C10 (amended): a zero-rewrite run returns the six-stage
history, and its executed-call trace is exactly the six stage calls. -/
theorem C10_stage_history_amended_witness :
    finalHistory (runForPersona cfgNoDedupe (S "t") proPersona envClean [] 0) =
      [S "SCOUT", S "IDEATE", S "STYLE_TRANSFER", S "HOT_TAKE", S "DRAFT",
       S "QUALITY_CHECK"] ∧
    runTrace (runForPersona cfgNoDedupe (S "t") proPersona envClean [] 0) =
      [.scout, .ideate, .style_transfer, .hot_take, .draft, .quality_check 0] :=
  have h := C10_stage_history_amended cfgNoDedupe (S "t") proPersona envClean [] 0
    (by decide)
  ⟨h.1, h.2 (by decide)⟩

/-! ## C8: dedupe gate semantics -/

/-- C8: with dedupe enabled, the gate behaves as specified.  If the first
check flags a duplicate, exactly one additional REWRITE is attempted with the
matched text as avoid-text (visible in the executed-call trace) and the
content is re-checked; a still-duplicate re-check drops the persona (no
`DraftResult`, nothing added to the store, counted as skipped by `run`); a
clean re-check returns the rewritten content after recording it into the
store.  If the first check is clean, the guarded content is recorded into the
store and returned. -/
theorem C8_dedupe_gate (cfg : PipelineCfg) (topic : Str) (persona : PersonaProfile)
    (env : PersonaEnv) (store : DedupeStore) (now : ℤ) (d2 : DraftJson)
    (hde : cfg.dedupe_enabled = true)
    (hok : preOk cfg persona env = true)
    (hrw : env.rewriteR (prePasses cfg persona env)
        (gateCheck1 cfg persona env store now).matched_text = .ok d2) :
    ((gateCheck1 cfg persona env store now).is_duplicate = true →
      (dedupeCheck store persona.key (pyStrip d2.content) cfg.dedupe_threshold
          cfg.dedupe_window_hours now).is_duplicate = true →
      runForPersona cfg topic persona env store now =
        .ok (none, store, preTrace cfg persona env ++
          [.rewrite (prePasses cfg persona env)
            (gateCheck1 cfg persona env store now).matched_text]) ∧
      pipelineRun cfg topic [persona] (fun _ => env) store now true =
        { content_pack := none, per_persona := [], dry_run := true
          skipped := [persona.key] }) ∧
    ((gateCheck1 cfg persona env store now).is_duplicate = true →
      (dedupeCheck store persona.key (pyStrip d2.content) cfg.dedupe_threshold
          cfg.dedupe_window_hours now).is_duplicate = false →
      (runDraft (runForPersona cfg topic persona env store now)).isSome = true ∧
      finalContent (runForPersona cfg topic persona env store now) =
        pyStrip d2.content ∧
      runStore (runForPersona cfg topic persona env store now) =
        dedupeAdd store persona.key (pyStrip d2.content) now ∧
      runTrace (runForPersona cfg topic persona env store now) =
        preTrace cfg persona env ++
          [.rewrite (prePasses cfg persona env)
            (gateCheck1 cfg persona env store now).matched_text]) ∧
    ((gateCheck1 cfg persona env store now).is_duplicate = false →
      (runDraft (runForPersona cfg topic persona env store now)).isSome = true ∧
      finalContent (runForPersona cfg topic persona env store now) =
        preContent cfg persona env ∧
      runStore (runForPersona cfg topic persona env store now) =
        dedupeAdd store persona.key (preContent cfg persona env) now ∧
      runTrace (runForPersona cfg topic persona env store now) =
        preTrace cfg persona env) := by
  cases hpg : preGate cfg persona env with
  | error e => simp [preOk, hpg] at hok
  | ok pg =>
    simp only [gateCheck1, preContent, prePasses, preTrace, hpg] at hrw ⊢
    refine ⟨fun hdup hdup2 => ?_, fun hdup hdup2 => ?_, fun hclean => ?_⟩
    · have hrun := runForPersona_dup_path cfg topic persona env store now pg d2
        hpg hde hdup hrw
      rw [if_pos hdup2] at hrun
      refine ⟨hrun, ?_⟩
      unfold pipelineRun runLoop
      simp only [hrun]
      rfl
    · have hrun := runForPersona_dup_path cfg topic persona env store now pg d2
        hpg hde hdup hrw
      rw [if_neg (by simp [hdup2])] at hrun
      rw [hrun]
      exact ⟨rfl, rfl, rfl, rfl⟩
    · have hrun := runForPersona_not_dup cfg topic persona env store now pg hpg
        (Or.inr hclean)
      rw [hrun]
      refine ⟨rfl, rfl, ?_, rfl⟩
      simp [runStore, hde]

set_option maxRecDepth 100000 in
unseal Rat.mul Rat.inv in
/-- Witness for C8 on the duplicate-then-clean path: the first check flags
the drafted text as a duplicate of the stored one, the extra rewrite's
content passes the re-check, and it is returned and recorded into the
store. -/
theorem C8_dedupe_gate_witness :
    (runDraft (runForPersona cfgNoLoop (S "t") proPersona envLongRewrite
        storeWithDraft 0)).isSome = true ∧
    finalContent (runForPersona cfgNoLoop (S "t") proPersona envLongRewrite
        storeWithDraft 0) = pyStrip (List.replicate 281 'a') ∧
    runStore (runForPersona cfgNoLoop (S "t") proPersona envLongRewrite
        storeWithDraft 0) =
      dedupeAdd storeWithDraft (S "pro") (pyStrip (List.replicate 281 'a')) 0 :=
  have h := (C8_dedupe_gate cfgNoLoop (S "t") proPersona envLongRewrite
      storeWithDraft 0 { content := List.replicate 281 'a' } rfl (by decide)
      rfl).2.1 (by decide) (by decide)
  ⟨h.1, h.2.1, h.2.2.1⟩

/-! ## C9: run-level soft failure -/

section RunLemmas

/-- A run that produces no `DraftResult` fails or drops exactly when its
draft observer is `none`. -/
theorem failsOrDrops_of_runDraft_none
    (r : Except Unit (Option DraftResult × DedupeStore × List StageEv))
    (h : runDraft r = none) : failsOrDrops r := by
  cases r with
  | error e => trivial
  | ok out =>
    obtain ⟨od, st, tr⟩ := out
    cases od with
    | none => trivial
    | some dr => simp [runDraft] at h

/-- Failed persona runs never mutate the dedupe store: a run that is dropped
by the dedupe gate returns the store it was given (the record is only added
on the success paths). -/
theorem runForPersona_drop_store (cfg : PipelineCfg) (topic : Str)
    (persona : PersonaProfile) (env : PersonaEnv) (store : DedupeStore) (now : ℤ)
    (st' : DedupeStore) (tr : List StageEv)
    (h : runForPersona cfg topic persona env store now = .ok (none, st', tr)) :
    st' = store := by
  unfold runForPersona at h
  cases hpg : preGate cfg persona env with
  | error e => simp only [hpg] at h; exact Except.noConfusion h
  | ok pg =>
    simp only [hpg] at h
    by_cases hde : cfg.dedupe_enabled = true
    · rw [if_pos hde] at h
      by_cases hdup : (dedupeCheck store persona.key pg.content cfg.dedupe_threshold
          cfg.dedupe_window_hours now).is_duplicate = true
      · rw [if_pos hdup] at h
        cases hrw : env.rewriteR pg.passes
            (dedupeCheck store persona.key pg.content cfg.dedupe_threshold
              cfg.dedupe_window_hours now).matched_text with
        | error e => simp only [hrw] at h; exact Except.noConfusion h
        | ok d2 =>
          simp only [hrw] at h
          by_cases hdup2 : (dedupeCheck store persona.key (pyStrip d2.content)
              cfg.dedupe_threshold cfg.dedupe_window_hours now).is_duplicate = true
          · rw [if_pos hdup2] at h
            simp only [Except.ok.injEq, Prod.mk.injEq] at h
            exact h.2.1.symm
          · rw [if_neg hdup2] at h
            simp at h
      · rw [if_neg hdup] at h
        simp at h
    · rw [if_neg hde] at h
      simp at h

theorem runLoop_all_fail (cfg : PipelineCfg) (topic : Str) (envs : Str → PersonaEnv)
    (store : DedupeStore) (now : ℤ) :
    ∀ personas : List PersonaProfile,
      (∀ p ∈ personas,
        failsOrDrops (runForPersona cfg topic p (envs p.key) store now)) →
      (runLoop cfg topic envs now personas store).1 = [] ∧
      (runLoop cfg topic envs now personas store).2.1 =
        personas.map (fun p => p.key) := by
  intro personas
  induction personas with
  | nil => intro h; exact ⟨rfl, rfl⟩
  | cons p rest ih =>
    intro h
    have hp := h p (List.mem_cons_self p rest)
    have hrest : ∀ q ∈ rest,
        failsOrDrops (runForPersona cfg topic q (envs q.key) store now) :=
      fun q hq => h q (List.mem_cons_of_mem p hq)
    cases hr : runForPersona cfg topic p (envs p.key) store now with
    | error e =>
      have := ih hrest
      simp only [runLoop, hr]
      exact ⟨this.1, by simp [this.2]⟩
    | ok out =>
      obtain ⟨od, st', tr⟩ := out
      cases od with
      | none =>
        obtain rfl := runForPersona_drop_store cfg topic p (envs p.key) store now
          st' tr hr
        have := ih hrest
        simp only [runLoop, hr]
        exact ⟨this.1, by simp [this.2]⟩
      | some dr =>
        rw [hr] at hp
        exact absurd hp (by simp [failsOrDrops])

end RunLemmas

/-- C9: if every requested persona's run against the run's initial dedupe
store either raises (caught and logged by `run`) or is dropped by the dedupe
gate — and failed runs never mutate the store, so this is exactly the runs
in which no persona yields a `DraftResult` — then `run` returns normally,
with no exception: `content_pack = none`, an empty `per_persona` mapping,
and every failed persona key listed in `skipped`, in order. -/
theorem C9_soft_failure (cfg : PipelineCfg) (topic : Str)
    (personas : List PersonaProfile) (envs : Str → PersonaEnv)
    (store : DedupeStore) (now : ℤ) (dry : Bool)
    (h : ∀ p ∈ personas,
      failsOrDrops (runForPersona cfg topic p (envs p.key) store now)) :
    pipelineRun cfg topic personas envs store now dry =
      { content_pack := none, per_persona := [], dry_run := dry
        skipped := personas.map (fun p => p.key) } := by
  have hl := runLoop_all_fail cfg topic envs store now personas h
  unfold pipelineRun
  rw [if_pos hl.1, hl.2]

set_option maxRecDepth 100000 in
unseal Rat.mul Rat.inv in
/-- Witness for C9 exercising both failure modes of the claim: persona `pro`
is dropped by the dedupe gate (its draft and its extra rewrite both duplicate
the stored text) and persona `work`'s SCOUT stage raises; the run returns a
`PipelineResult` with no content pack, no per-persona entries, and both
personas listed as skipped. -/
theorem C9_soft_failure_witness :
    pipelineRun cfgNoLoop (S "t") [proPersona, workPersona]
        (fun k => if k = S "pro" then envBothDup else envScoutFails)
        storeWithDraft 0 true =
      { content_pack := none, per_persona := [], dry_run := true
        skipped := [S "pro", S "work"] } :=
  C9_soft_failure cfgNoLoop (S "t") [proPersona, workPersona]
    (fun k => if k = S "pro" then envBothDup else envScoutFails)
    storeWithDraft 0 true
    (by
      intro p hp
      simp only [List.mem_cons, List.mem_singleton] at hp
      rcases hp with rfl | rfl | hfalse
      · exact failsOrDrops_of_runDraft_none _ (by decide)
      · exact failsOrDrops_of_runDraft_none _ (by decide)
      · exact absurd hfalse (by simp))

end ContentMachine
